import Mathlib

/-!
Shallow embedding of the `eksnode` node-bootstrap tool (Rust) in Lean 4,
together with theorems settling the claims of its natural-language
specification.

Conventions used throughout:
* Rust `i32` values are modelled as `Int` (no arithmetic here comes close to
  the `i32` range in any reachable execution, and Rust panics/wraps only on
  overflow, which the claims do not concern).
* Rust `Result<T>` (anyhow) is modelled as `Except String T` when only the
  error message matters, or as a dedicated error enum when different error
  causes must be distinguished.  A Rust `panic!`/`unwrap` failure is a third
  outcome, modelled by `RunResult`.
* `semver::Version` values flowing through this program are produced by
  `get_semver`, which only ever yields bare `major.minor.patch` triples
  (no pre-release, no build metadata), so `SemVersion` is a triple of `Nat`
  and semver ordering coincides with lexicographic ordering on the triple.
* Maps (`BTreeMap`) are modelled as association lists sorted by key, which is
  the iteration order a `BTreeMap` exposes.
-/

deriving instance DecidableEq for Except

namespace Eksnode

/-- Outcome of running a fallible Rust function: `ok`, a returned `Err`,
or a `panic!`/failed `unwrap`. -/
inductive RunResult (α : Type) where
  | ok (a : α)
  | err (msg : String)
  | panic
  deriving Repr, DecidableEq

/-- `semver::Version` as produced by `utils::get_semver`: a bare
`major.minor.patch` triple (group 1 of the regex holds no pre-release or
build metadata). -/
structure SemVersion where
  major : Nat
  minor : Nat
  patch : Nat
  deriving Repr, DecidableEq

/-- `semver::Version` ordering restricted to bare triples: lexicographic on
`(major, minor, patch)`.  Mirrors the derived `Ord` of `semver::Version`
(whose pre-release component is absent here). -/
def SemVersion.ltv (a b : SemVersion) : Bool :=
  decide (a.major < b.major ∨ (a.major = b.major ∧
    (a.minor < b.minor ∨ (a.minor = b.minor ∧ a.patch < b.patch))))

/-- `a.ge(&b)` on `semver::Version` for bare triples. -/
def SemVersion.gev (a b : SemVersion) : Bool :=
  !(a.ltv b)

/-- `IpvFamily` from `lib.rs` (`Ipv4` is the `Default`). -/
inductive IpvFamily where
  | ipv4
  | ipv6
  deriving Repr, DecidableEq

/-- `containerd::DefaultRuntime` (`Containerd` is the `Default`). -/
inductive DefaultRuntime where
  | containerd
  | neuron
  | nvidia
  deriving Repr, DecidableEq

/-- `commands::join::LocalDisks`. -/
inductive LocalDisks where
  | mount
  | raid0
  deriving Repr, DecidableEq

/-! ## `resource.rs` — Capacity Calculator -/

/-- `resource::memory_mebibytes_to_reserve`: `11 * max_pods + 255`
(the Rust function is infallible, its `Result` wrapper is dropped). -/
def memory_mebibytes_to_reserve (max_pods : Int) : Int :=
  11 * max_pods + 255

/-- One iteration of the `for cpu in 0..num_cpus` loop body of
`resource::cpu_millicores_to_reserve`: the millicores contributed by vCPU
index `cpu`. -/
def cpuTier (cpu : Nat) : Nat :=
  match cpu with
  | 0 => 600
  | 1 | 2 => 100
  | 3 | 4 => 50
  | _ => 25

/-- `resource::cpu_millicores_to_reserve`.

The Rust loop `for cpu in 0..num_cpus` iterates over `0, …, num_cpus-1`
(nothing when `num_cpus <= 0`), which `List.range num_cpus.toNat` models
exactly.  The final rounding in Rust is
`((reserved as f64 / 100.0).round() * 10.0) as i32`.  `reserved` is always a
non-negative multiple of 25 (each loop contribution and the 400 bonus are),
and for such values `reserved / 100.0` is exactly representable in `f64`
(it is `m / 4` with `m = reserved / 25` far below 2^52), so the `f64`
division is exact and `f64::round` is round-half-away-from-zero, which on
non-negative values is `(reserved + 50) / 100` in integer division. -/
def cpu_millicores_to_reserve (max_pods num_cpus : Int) : Int :=
  let reserved : Nat :=
    (List.range num_cpus.toNat).foldl (fun acc cpu => acc + cpuTier cpu) 0
  let reserved : Nat := if max_pods > 110 then reserved + 400 else reserved
  ((reserved + 50) / 100 * 10 : Nat)

/-- `resource::calculate_eni_max_pods`:
`num_enis * ((ipv4_addrs - 1) * modifier) + 2` with `modifier = 16` when
prefix delegation is enabled, else `1`. -/
def calculate_eni_max_pods (num_enis ipv4_addrs : Int) (enable_prefix_del : Bool) : Int :=
  let modifier : Int := if enable_prefix_del then 16 else 1
  num_enis * ((ipv4_addrs - 1) * modifier) + 2

/-! ## IP addresses and networks (`std::net`, `ipnet`) -/

/-- `std::net::Ipv4Addr` as its 32-bit numeric value (`< 2^32`).
Octet `k` (1-based, most significant first) is `addr / 2^(8*(4-k)) % 256`. -/
abbrev Ipv4Addr : Type := Nat

/-- `std::net::Ipv6Addr` as its 128-bit numeric value (`< 2^128`).
16-bit segment `k` (1-based, most significant first) is
`addr / 2^(16*(8-k)) % 2^16`. -/
abbrev Ipv6Addr : Type := Nat

/-- Build an `Ipv4Addr` from its four octets, as `Ipv4Addr::new(a, b, c, d)`. -/
def Ipv4Addr.mk4 (a b c d : Nat) : Ipv4Addr :=
  ((a * 256 + b) * 256 + c) * 256 + d

/-- First (most significant) octet of an IPv4 address:
`addr.octets().first()` (always present, so the `unwrap_or(&192)` default of
the Rust call site is never used). -/
def Ipv4Addr.firstOctet (a : Ipv4Addr) : Nat :=
  a / 2 ^ 24

/-- `ipnet::Ipv4Net`: the address as given (host bits are retained by the
crate) plus the prefix length (`0..=32`, enforced at parse time). -/
structure Ipv4Net where
  addr : Ipv4Addr
  plen : Nat
  deriving DecidableEq

/-- `ipnet::Ipv6Net`. -/
structure Ipv6Net where
  addr : Ipv6Addr
  plen : Nat
  deriving DecidableEq

/-- `Ipv4Net::network()`: the address with all host bits (the low
`32 - prefix_len` bits) cleared. -/
def Ipv4Net.network (n : Ipv4Net) : Ipv4Addr :=
  n.addr / 2 ^ (32 - n.plen) * 2 ^ (32 - n.plen)

/-- `Ipv6Net::network()`. -/
def Ipv6Net.network (n : Ipv6Net) : Ipv6Addr :=
  n.addr / 2 ^ (128 - n.plen) * 2 ^ (128 - n.plen)

/-- `ipnet::IpNet`. -/
inductive IpNet where
  | v4 (net : Ipv4Net)
  | v6 (net : Ipv6Net)
  deriving DecidableEq

/-- `std::net::IpAddr`. -/
inductive IpAddr where
  | v4 (addr : Ipv4Addr)
  | v6 (addr : Ipv6Addr)
  deriving DecidableEq

/-! ## `eks.rs` — Cluster Resolver -/

/-- Distinguishable error causes surfaced by the cluster-resolution path. -/
inductive EksError where
  | ipv6RequiresServiceCidr
  | describeFailed
  deriving Repr, DecidableEq

/-- `eks::ipv4_dns_ip_address`: overwrite the last octet with `10`
(the Rust function is infallible; its `Result` wrapper is dropped). -/
def ipv4_dns_ip_address (addr : Ipv4Addr) : Ipv4Addr :=
  addr / 256 * 256 + 10

/-- `eks::ipv6_dns_ip_address`: overwrite the last 16-bit segment with `0xa`
(`u16::from_str_radix("a", 16)` always succeeds). -/
def ipv6_dns_ip_address (addr : Ipv6Addr) : Ipv6Addr :=
  addr / 65536 * 65536 + 0xa

/-- `eks::derive_cluster_dns_ip`.

The `None`/`Ipv4` arm of the Rust source is a `for` loop over
`vpc_ipv4_cidr_blocks` that sets the result to `172.20.0.10` and breaks as
soon as a block whose *address* has first octet `10` is seen
(`cidr.addr().octets().first().unwrap_or(&192).eq(&10)`), falling back to
`10.100.0.10` when the loop finds none; `List.any` expresses exactly that
break-on-first-hit loop. -/
def derive_cluster_dns_ip (service_cidr : Option IpNet) (ip_family : IpvFamily)
    (vpc_ipv4_cidr_blocks : List Ipv4Net) : Except EksError IpAddr :=
  match service_cidr with
  | some cidr =>
    match cidr with
    | .v4 n => .ok (.v4 (ipv4_dns_ip_address n.network))
    | .v6 n => .ok (.v6 (ipv6_dns_ip_address n.network))
  | none =>
    match ip_family with
    | .ipv4 =>
      if vpc_ipv4_cidr_blocks.any (fun cidr => cidr.addr.firstOctet == 10) then
        .ok (.v4 (Ipv4Addr.mk4 172 20 0 10))
      else
        .ok (.v4 (Ipv4Addr.mk4 10 100 0 10))
    | .ipv6 => .error .ipv6RequiresServiceCidr

/-- `eks::Cluster`. -/
structure Cluster where
  name : String
  endpoint : String
  b64_ca : String
  is_local_cluster : Bool
  cluster_dns_ip : IpAddr
  deriving DecidableEq

/-- `commands::join::JoinClusterInput` (the CLI input of `join`). -/
structure JoinClusterInput where
  apiserver_endpoint : Option String
  b64_cluster_ca : Option String
  cluster_id : Option String
  cluster_name : String
  containerd_config_file : Option String
  default_container_runtime : DefaultRuntime
  cluster_dns_ip : Option IpAddr
  is_local_cluster : Bool
  ip_family : IpvFamily
  kubelet_extra_args : Option String
  local_disks : Option LocalDisks
  pause_container_image : Option String
  service_cidr : Option IpNet
  use_max_pods : Bool

/-- The fields of the `aws_sdk_eks::types::Cluster` response that
`collect_or_get_cluster` reads from a successful `describe_cluster` call. -/
structure DescribedCluster where
  name : String
  endpoint : String
  certificate_authority_data : String
  has_outpost_config : Bool

/-- `eks::collect_cluster`: the "direct" path; yields a cluster exactly when
both the API-server endpoint and the base64 CA were supplied on the CLI
(the Rust function's `Result` wrapper is infallible and dropped). -/
def collect_cluster (node : JoinClusterInput) (cluster_dns_ip : IpAddr) : Option Cluster :=
  match node.apiserver_endpoint with
  | some endpoint =>
    match node.b64_cluster_ca with
    | some b64_ca =>
      some { name := node.cluster_name
             endpoint := endpoint
             b64_ca := b64_ca
             is_local_cluster := node.is_local_cluster
             cluster_dns_ip := cluster_dns_ip }
    | none => none
  | none => none

/-- `eks::collect_or_get_cluster`.

The network call `describe_cluster` is injected as `describe`: `some d`
models a successful describe response, `none` a failed call (its error is
propagated by `?` in Rust; here collapsed to `EksError.describeFailed`). -/
def collect_or_get_cluster (node : JoinClusterInput) (vpc_ipv4_cidr_blocks : List Ipv4Net)
    (describe : Option DescribedCluster) : Except EksError Cluster :=
  match
    (match node.cluster_dns_ip with
     | some ip => Except.ok ip
     | none => derive_cluster_dns_ip node.service_cidr node.ip_family vpc_ipv4_cidr_blocks) with
  | .error e => .error e
  | .ok cluster_dns_ip =>
  match collect_cluster node cluster_dns_ip with
  | some cluster => .ok cluster
  | none =>
    match describe with
    | some d =>
      .ok { name := d.name
            endpoint := d.endpoint
            b64_ca := d.certificate_authority_data
            is_local_cluster := d.has_outpost_config
            cluster_dns_ip := cluster_dns_ip }
    | none => .error .describeFailed

/-! ## `utils.rs` — `get_semver`

`utils::get_semver` searches its input for the leftmost match of the
`regex_lite` pattern `v?(\d+\.\d+\.\d+)(-.*)?` (`\d` is ASCII `[0-9]` in
`regex_lite`) and feeds capture group 1 to `semver::Version::parse(..).unwrap()`.

Leftmost-first matching of that pattern is modelled directly: the match
starts at the earliest index where either a digit triple begins, or a `'v'`
is immediately followed by a digit triple.  Each `\d+` is forced to be a
*maximal* digit run, because a shorter run would have to be followed by `\.`
while the next character is still a digit.  The optional `(-.*)?` tail never
affects capture group 1.  Strings are handled as `List Char`. -/

/-- Capture group 1 of the pattern, attempted with the group anchored at the
head of `l`: the three (maximal, non-empty) digit runs of `\d+\.\d+\.\d+`. -/
def tripleAt (l : List Char) : Option (List Char × List Char × List Char) :=
  match l.dropWhile Char.isDigit with
  | dot1 :: r2 =>
    if dot1 = '.' then
      match r2.dropWhile Char.isDigit with
      | dot2 :: r4 =>
        if dot2 = '.' then
          if (l.takeWhile Char.isDigit).isEmpty || (r2.takeWhile Char.isDigit).isEmpty ||
              (r4.takeWhile Char.isDigit).isEmpty then none
          else some (l.takeWhile Char.isDigit, r2.takeWhile Char.isDigit,
            r4.takeWhile Char.isDigit)
        else none
      | [] => none
    else none
  | [] => none

/-- The whole pattern attempted at the head of `l`: `v?` greedily consumes a
leading `'v'` when present (when it does and no triple follows, the
backtracked empty `v?` would require a digit where the `'v'` stands, which
fails, so no second attempt is needed). -/
def groupAt (l : List Char) : Option (List Char × List Char × List Char) :=
  match l with
  | c :: rest => if c = 'v' then tripleAt rest else tripleAt l
  | [] => tripleAt l

/-- Leftmost match: try the pattern at each start position, left to right. -/
def scanSemver : List Char → Option (List Char × List Char × List Char)
  | [] => none
  | c :: rest =>
    match groupAt (c :: rest) with
    | some g => some g
    | none => scanSemver rest

/-- Numeric value of a run of ASCII digits. -/
def digitsToNat (d : List Char) : Nat :=
  d.foldl (fun a c => a * 10 + (c.toNat - 48)) 0

/-- `semver`'s parse of one numeric component: a non-empty ASCII digit run,
rejected when it has a leading zero (unless it is exactly "0") or does not
fit in `u64`. -/
def parseNumeric (d : List Char) : Option Nat :=
  if d.head? = some '0' ∧ d.length ≠ 1 then none
  else if digitsToNat d < 2 ^ 64 then some (digitsToNat d) else none

/-- `utils::get_semver`.  A failed `Version::parse(..).unwrap()` on the
captured triple (leading zero or `u64` overflow) is a Rust panic. -/
def get_semver (s : List Char) : RunResult SemVersion :=
  match scanSemver s with
  | none => .err "Unable to parse version"
  | some (d1, d2, d3) =>
    match parseNumeric d1, parseNumeric d2, parseNumeric d3 with
    | some major, some minor, some patch => .ok ⟨major, minor, patch⟩
    | _, _, _ => .panic

/-- `resource::prefix_delegation_supported`: parse the CNI version and
compare against the minimum supported `1.9.0`. -/
def prefix_delegation_supported (cni_ver : List Char) : RunResult Bool :=
  match get_semver "1.9.0".toList with
  | .ok min_supported =>
    match get_semver cni_ver with
    | .ok cni => .ok (cni.gev min_supported)
    | .err e => .err e
    | .panic => .panic
  | .err e => .err e
  | .panic => .panic

/-! ## `ec2.rs` — static instance data, `commands/calculate.rs`, max pods -/

/-- `ec2::Instance`: one entry of the embedded `ec2-instances.yaml` dataset. -/
structure Instance where
  default_vcpus : Int
  eni_maximum_pods : Int
  hypervisor : String
  instance_storage_supported : Bool
  ipv4_addresses_per_interface : Int
  maximum_network_interfaces : Int

/-- `ec2::get_instance`: lookup by instance-type string in the embedded
dataset (passed here as an association list; the compiled-in asset always
parses, so the `Result` wrapper of the Rust function is dropped). -/
def get_instance (table : List (String × Instance)) (instance_type : String) : Option Instance :=
  table.lookup instance_type

/-- `commands::calculate::CalculateMaxPodsInput`. -/
structure CalculateMaxPodsInput where
  instance_type : Option String
  instance_type_from_imds : Bool
  cni_version : String
  cni_custom_networking_enabled : Bool
  cni_prefix_delegation_enabled : Bool
  cni_max_enis : Option Int

/-- `CalculateMaxPodsInput::calculate`.

`imds_instance_type` injects the IMDS response used only when
`instance_type_from_imds` is set; with it unset, `self.instance_type.unwrap()`
panics when the field is `None`. -/
def CalculateMaxPodsInput.calculate (self : CalculateMaxPodsInput)
    (table : List (String × Instance)) (imds_instance_type : String) : RunResult Int :=
  let instance_type? : Option String :=
    if self.instance_type_from_imds then some imds_instance_type else self.instance_type
  match instance_type? with
  | none => .panic
  | some instance_type =>
    match get_instance table instance_type with
    | none => .err ("Instance type " ++ instance_type ++ " is not supported or invalid")
    | some inst =>
      match prefix_delegation_supported self.cni_version.toList with
      | .err e => .err e
      | .panic => .panic
      | .ok prefix_supported =>
        let num_enis : Int :=
          match self.cni_max_enis with
          | some enis => min inst.maximum_network_interfaces enis
          | none => inst.maximum_network_interfaces
        let num_enis := if self.cni_custom_networking_enabled then num_enis - 1 else num_enis
        let use_prefix_del :=
          inst.hypervisor == "nitro" && prefix_supported && self.cni_prefix_delegation_enabled
        let max_pods := calculate_eni_max_pods num_enis inst.ipv4_addresses_per_interface use_prefix_del
        if inst.default_vcpus > 30 then .ok (min 250 max_pods) else .ok (min 110 max_pods)

/-- `JoinClusterInput::get_max_pods`: table hit returns the precomputed
`eni_maximum_pods`; a miss falls back to `CalculateMaxPodsInput::calculate`
with fixed CNI inputs (`instance_type_from_imds` is `false` on this path, so
IMDS is never queried and the injected IMDS value is irrelevant). -/
def get_max_pods (table : List (String × Instance)) (instance_type : String) : RunResult Int :=
  match get_instance table instance_type with
  | some inst => .ok inst.eni_maximum_pods
  | none =>
    CalculateMaxPodsInput.calculate
      { instance_type := some instance_type
        instance_type_from_imds := false
        cni_version := "1.10.0"
        cni_custom_networking_enabled := false
        cni_prefix_delegation_enabled := false
        cni_max_enis := none } table ""

/-! ## `kubelet/credential.rs` — Credential-Provider Config Builder -/

/-- `kubelet::credential::ExecEnvVar`. -/
structure ExecEnvVar where
  name : String
  value : String
  deriving DecidableEq

/-- `kubelet::credential::CredentialProvider` (one provider entry). -/
structure CredentialProvider where
  name : String
  match_images : List String
  default_cache_duration : String
  api_version : String
  args : Option (List String)
  env : Option (List ExecEnvVar)
  deriving DecidableEq

/-- `kubelet::credential::CredentialProviderConfig`. -/
structure CredentialProviderConfig where
  kind : String
  api_version : String
  providers : List CredentialProvider
  deriving DecidableEq

/-- `CredentialProviderConfig::new` (the Rust `Result` wrapper is
infallible — `Version::parse("1.27.0")` always succeeds — and dropped). -/
def CredentialProviderConfig.new (kubelet_version : SemVersion) : CredentialProviderConfig :=
  let api_version :=
    if kubelet_version.ltv ⟨1, 27, 0⟩ then "credentialprovider.kubelet.k8s.io/v1alpha1"
    else "credentialprovider.kubelet.k8s.io/v1"
  { api_version := api_version
    kind := "CredentialProviderConfig"
    providers := [
      { name := "ecr-credential-provider"
        match_images := [
          "*.dkr.ecr.*.amazonaws.com",
          "*.dkr.ecr.*.amazonaws.com.cn",
          "*.dkr.ecr-fips.*.amazonaws.com",
          "*.dkr.ecr.us-iso-east-1.c2s.ic.gov",
          "*.dkr.ecr.us-isob-east-1.sc2s.sgov.gov"]
        default_cache_duration := "12h"
        api_version := "credentialprovider.kubelet.k8s.io/v1"
        args := none
        env := none }] }

/-! ## `kubelet/config.rs` — Kubelet Config Builder

The Rust `KubeletConfiguration` struct has many further `Option` fields that
no constructor or builder of this program ever sets; they stay at their
`Default` (`None`) in every reachable value and carry no information, so only
the fields written by `KubeletConfiguration::new`/`default` and
`JoinClusterInput::get_kubelet_config` are embedded. -/

/-- `kubelet::config::HairpinMode`. -/
inductive HairpinMode where
  | hairpinVeth
  | promiscuousBridge
  | hairpinNone
  deriving DecidableEq

/-- `kubelet::config::Authentication` (with its nested anonymous / webhook /
x509 sub-structs flattened into their leaf fields). -/
structure Authentication where
  anonymous_enabled : Bool
  webhook_cache_ttl : String
  webhook_enabled : Bool
  x509_client_ca_file : String
  deriving DecidableEq

/-- `kubelet::config::Authorization` (nested webhook sub-struct flattened). -/
structure Authorization where
  mode : String
  webhook_cache_authorized_ttl : String
  webhook_cache_unauthorized_ttl : String
  deriving DecidableEq

/-- `kubelet::config::KubeletConfiguration` (fields reachable by the
modelled builders; see the section comment).  `cluster_dns` stores the
addresses themselves; the Rust field holds their `Display` rendering, a
formatting detail no modelled consumer observes. -/
structure KubeletConfiguration where
  kind : String
  api_version : String
  address : Option String
  authentication : Authentication
  authorization : Authorization
  cluster_domain : Option String
  cluster_dns : Option (List IpAddr)
  container_runtime_endpoint : Option String
  eviction_hard : Option (List (String × String))
  kube_reserved : Option (List (String × String))
  hairpin_mode : Option HairpinMode
  read_only_port : Option Int
  cgroup_driver : Option String
  cgroup_root : Option String
  system_reserved_cgroup : Option String
  kube_reserved_cgroup : Option String
  feature_gates : Option (List (String × Bool))
  protect_kernel_defaults : Option Bool
  serialize_image_pulls : Option Bool
  server_tls_bootstrap : Option Bool
  shutdown_grace_period : Option String
  shutdown_grace_period_critical_pods : Option String
  tls_cipher_suites : Option (List String)
  max_pods : Option Int
  kube_api_qps : Option Int
  kube_api_burst : Option Int
  provider_id : Option String

/-- `KubeletConfiguration::new`.  The four trailing fields come from
`..KubeletConfiguration::default()` (all `None`). -/
def KubeletConfiguration.new (cluster_dns : IpAddr)
    (mebibytes_to_reserve cpu_millicores_to_reserve : Int) : KubeletConfiguration :=
  { kind := "KubeletConfiguration"
    api_version := "kubelet.config.k8s.io/v1beta1"
    address := some "0.0.0.0"
    authentication :=
      { anonymous_enabled := false
        webhook_cache_ttl := "2m0s"
        webhook_enabled := true
        x509_client_ca_file := "/etc/kubernetes/pki/ca.crt" }
    authorization :=
      { mode := "Webhook"
        webhook_cache_authorized_ttl := "5m0s"
        webhook_cache_unauthorized_ttl := "30s" }
    cluster_domain := some "cluster.local"
    cluster_dns := some [cluster_dns]
    container_runtime_endpoint := some "unix:///run/containerd/containerd.sock"
    eviction_hard := some [
      ("memory.available", "100Mi"),
      ("nodefs.available", "10%"),
      ("nodefs.inodesFree", "5%")]
    kube_reserved := some [
      ("cpu", toString cpu_millicores_to_reserve ++ "m"),
      ("ephemeral-storage", "3Gi"),
      ("memory", toString mebibytes_to_reserve ++ "Mi")]
    hairpin_mode := some .hairpinVeth
    read_only_port := some 0
    cgroup_driver := some "systemd"
    cgroup_root := some "/"
    system_reserved_cgroup := some "/system"
    kube_reserved_cgroup := some "/runtime"
    feature_gates := some [("RotateKubeletServerCertificate", true)]
    protect_kernel_defaults := some true
    serialize_image_pulls := some false
    server_tls_bootstrap := some true
    shutdown_grace_period := some "45s"
    shutdown_grace_period_critical_pods := some "15s"
    tls_cipher_suites := some [
      "TLS_ECDHE_ECDSA_WITH_AES_128_GCM_SHA256",
      "TLS_ECDHE_RSA_WITH_AES_128_GCM_SHA256",
      "TLS_ECDHE_ECDSA_WITH_CHACHA20_POLY1305",
      "TLS_ECDHE_RSA_WITH_AES_256_GCM_SHA384",
      "TLS_ECDHE_RSA_WITH_CHACHA20_POLY1305",
      "TLS_ECDHE_ECDSA_WITH_AES_256_GCM_SHA384",
      "TLS_RSA_WITH_AES_256_GCM_SHA384",
      "TLS_RSA_WITH_AES_128_GCM_SHA256"]
    max_pods := none
    kube_api_qps := none
    kube_api_burst := none
    provider_id := none }

/-- `KubeletConfiguration::get_provider_id`:
`format!("aws:///{availability_zone}/{instance_id}")` (infallible). -/
def KubeletConfiguration.get_provider_id (availability_zone instance_id : String) : String :=
  "aws:///" ++ availability_zone ++ "/" ++ instance_id

/-- `BTreeMap::insert` on the sorted-association-list model of a
`BTreeMap<String, bool>`. -/
def btreeInsert : List (String × Bool) → String → Bool → List (String × Bool)
  | [], key, val => [(key, val)]
  | (k, v) :: rest, key, val =>
    if key < k then (key, val) :: (k, v) :: rest
    else if key = k then (key, val) :: rest
    else (k, v) :: btreeInsert rest key val

/-- `JoinClusterInput::get_kubelet_config`.

`num_cpus` injects `num_cpus::get() as i32` (a host fact read inside the
Rust function).  The Rust `Result` wrapper is infallible — every fallible
step is `Version::parse` of a literal or `get_provider_id` — and dropped. -/
def JoinClusterInput.get_kubelet_config (self : JoinClusterInput) (cluster_dns_ip : IpAddr)
    (max_pods : Int) (kubelet_version : SemVersion) (availability_zone instance_id : String)
    (num_cpus : Int) : KubeletConfiguration :=
  let mebibytes_to_reserve := memory_mebibytes_to_reserve max_pods
  let cpu_to_reserve := cpu_millicores_to_reserve max_pods num_cpus
  let config := KubeletConfiguration.new cluster_dns_ip mebibytes_to_reserve cpu_to_reserve
  let config := if self.use_max_pods then { config with max_pods := some max_pods } else config
  let config :=
    if kubelet_version.gev ⟨1, 22, 0⟩ && kubelet_version.ltv ⟨1, 27, 0⟩ then
      { config with kube_api_qps := some 10, kube_api_burst := some 20 }
    else config
  let config :=
    match kubelet_version.ltv ⟨1, 26, 0⟩ with
    | true => { config with provider_id := none }
    | false =>
      { config with
        provider_id := some (KubeletConfiguration.get_provider_id availability_zone instance_id) }
  if kubelet_version.ltv ⟨1, 28, 0⟩ then
    { config with
      feature_gates := some (match config.feature_gates with
        | some feature_gates => btreeInsert feature_gates "KubeletCredentialProviders" true
        | none => [("KubeletCredentialProviders", true)]) }
  else config

/-! ## `utils::write_file` — filesystem semantics

`utils::write_file` (and the structurally identical opens in
`KubeletConfiguration::write` and `CredentialProviderConfig::write`) opens
the target with `OpenOptions::new().write(true).create(true).mode(..)` —
note: no `truncate(true)` and no prior `remove_file` — writes the contents
from offset 0, and optionally chowns to `root:root`.  The state of one file
is modelled explicitly so that the effect on pre-existing content is
visible. -/

/-- State of one file on disk: its bytes, its mode bits, and its owner
(`none` = owned by whatever the creating process's uid/gid gave it). -/
structure FsFile where
  data : List Nat
  mode : Nat
  owner : Option (Nat × Nat)
  deriving DecidableEq

/-- `utils::write_file` applied to a path whose prior state is `prior`
(`none` = no such file).  `OpenOptions::write(true).create(true)` creates the
file with the given mode when absent, but neither truncates an existing file
nor changes its mode: the new contents overwrite the head of the old bytes
and any longer tail survives.  `chown` sets owner `root:root` (0, 0). -/
def write_file (contents : List Nat) (prior : Option FsFile) (mode : Option Nat)
    (chown : Bool) : FsFile :=
  let opened : FsFile :=
    match prior with
    | none => { data := [], mode := mode.getD 0o644, owner := none }
    | some f => f
  let written : FsFile := { opened with data := contents ++ opened.data.drop contents.length }
  if chown then { written with owner := some (0, 0) } else written

/-! ## base64 (`base64::engine::general_purpose::STANDARD_NO_PAD`) and
`JoinClusterInput::write_ca_cert` -/

/-- The standard base64 alphabet, as the sextet value of a character:
`A..Z` ↦ 0..25, `a..z` ↦ 26..51, `0..9` ↦ 52..61, `+` ↦ 62, `/` ↦ 63; every
other byte — including the padding character `=`, which the `NO_PAD` engine
rejects — is invalid. -/
def b64Value (c : Char) : Option Nat :=
  let n := c.toNat
  if 65 ≤ n ∧ n ≤ 90 then some (n - 65)
  else if 97 ≤ n ∧ n ≤ 122 then some (n - 97 + 26)
  else if 48 ≤ n ∧ n ≤ 57 then some (n - 48 + 52)
  else if n = 43 then some 62
  else if n = 47 then some 63
  else none

/-- The character of a sextet value (`< 64`): the encode direction of the
same alphabet. -/
def b64Char (v : Nat) : Char :=
  Char.ofNat (if v < 26 then 65 + v
    else if v < 52 then 97 + (v - 26)
    else if v < 62 then 48 + (v - 52)
    else if v = 62 then 43 else 47)

/-- Decode a list of sextet values into bytes, per the `base64` crate with
padding forbidden and trailing bits checked (`decode_allow_trailing_bits`
is off): a final chunk of 1 sextet is an invalid length; final chunks of 2
or 3 sextets must have their unused low bits (4 resp. 2) zero. -/
def b64DecodeVals : List Nat → Option (List Nat)
  | [] => some []
  | [_] => none
  | [a, b] => if b % 16 = 0 then some [a * 4 + b / 16] else none
  | [a, b, c] =>
    if c % 4 = 0 then some [a * 4 + b / 16, b % 16 * 16 + c / 4] else none
  | a :: b :: c :: d :: rest =>
    match b64DecodeVals rest with
    | some bytes => some ((a * 4 + b / 16) :: (b % 16 * 16 + c / 4) :: (c % 4 * 64 + d) :: bytes)
    | none => none

/-- Map every character of the input through the alphabet table; any foreign
character (`=` included) is an error. -/
def b64Vals : List Char → Option (List Nat)
  | [] => some []
  | c :: rest =>
    match b64Value c, b64Vals rest with
    | some v, some vs => some (v :: vs)
    | _, _ => none

/-- `STANDARD_NO_PAD.decode`: map every character through the alphabet,
then assemble bytes. -/
def b64Decode (s : List Char) : Option (List Nat) :=
  match b64Vals s with
  | some vals => b64DecodeVals vals
  | none => none

/-- Encode a byte list into sextet values, three bytes to four sextets,
with the canonical short final chunks (2 sextets for 1 byte, 3 for 2). -/
def b64EncodeVals : List Nat → List Nat
  | [] => []
  | [b1] => [b1 / 4, b1 % 4 * 16]
  | [b1, b2] => [b1 / 4, b1 % 4 * 16 + b2 / 16, b2 % 16 * 4]
  | b1 :: b2 :: b3 :: rest =>
    b1 / 4 :: (b1 % 4 * 16 + b2 / 16) :: (b2 % 16 * 4 + b3 / 64) :: b3 % 64 :: b64EncodeVals rest

/-- `STANDARD_NO_PAD.encode`, the specification-side meaning of "valid
unpadded standard base64": a string is valid exactly when it is the
encoding of some byte sequence. -/
def b64Encode (bs : List Nat) : List Char :=
  (b64EncodeVals bs).map b64Char

/-- The arguments `JoinClusterInput::write_ca_cert` hands to
`utils::write_file` when the decode succeeds. -/
structure WriteRequest where
  contents : List Nat
  path : String
  mode : Option Nat
  chown : Bool
  deriving DecidableEq

/-- `JoinClusterInput::write_ca_cert`: decode the base64 CA with
`STANDARD_NO_PAD` (propagating a decode error before any filesystem access)
and write the decoded bytes to `/etc/kubernetes/pki/ca.crt` with mode
`0o644` and `chown` to root. -/
def write_ca_cert (base64_ca : List Char) : Except String WriteRequest :=
  match b64Decode base64_ca with
  | none => .error "base64 decode error"
  | some decoded =>
    .ok { contents := decoded
          path := "/etc/kubernetes/pki/ca.crt"
          mode := some 0o644
          chown := true }

/-! ## Specification-side definitions

The remaining definitions are *not* translations of the source: they state,
independently of the embedding above, the notions the specification's claims
quantify over, so the claim theorems can compare the two. -/

/-- Strict semver order on bare `major.minor.patch` triples, as a
proposition: lexicographic. -/
def SemVersion.specLt (a b : SemVersion) : Prop :=
  a.major < b.major ∨ (a.major = b.major ∧
    (a.minor < b.minor ∨ (a.minor = b.minor ∧ a.patch < b.patch)))

instance (a b : SemVersion) : Decidable (a.specLt b) := by
  unfold SemVersion.specLt; infer_instance

/-- Non-strict semver order on bare triples. -/
def SemVersion.specLe (a b : SemVersion) : Prop :=
  a.specLt b ∨ a = b

/-- The claimed per-core reservation tiers: core 0 contributes 600, cores
1–2 contribute 100 each, cores 3–4 contribute 50 each, and every further
core contributes 25. -/
def specCpuShare (core : Nat) : Nat :=
  if core = 0 then 600
  else if core ≤ 2 then 100
  else if core ≤ 4 then 50
  else 25

/-- The claimed rounded reservation: the tiered sum over the first
`num_cpus` cores, plus 400 when `max_pods > 110`, divided by 100, rounded
to the nearest integer, and multiplied by 10. -/
def specCpuReserve (max_pods num_cpus : Int) : Int :=
  10 * round (((∑ i in Finset.range num_cpus.toNat, (specCpuShare i : ℚ)) +
    (if max_pods > 110 then 400 else 0)) / 100)

/-- "CIDR block `sub` falls inside `sup`" — subnet containment as `ipnet`
defines it: `sup`'s prefix is no longer than `sub`'s, and truncating `sub`'s
network address to `sup`'s prefix yields `sup`'s network address. -/
def Ipv4Net.fallsInside (sub sup : Ipv4Net) : Prop :=
  sup.plen ≤ sub.plen ∧
    sub.network / 2 ^ (32 - sup.plen) * 2 ^ (32 - sup.plen) = sup.network

instance (sub sup : Ipv4Net) : Decidable (sub.fallsInside sup) := by
  unfold Ipv4Net.fallsInside; infer_instance

/-- Declarative match of the capture group `(\d+\.\d+\.\d+)` anchored at the
head of `l`: some decomposition into three non-empty digit runs separated by
dots, followed by anything. -/
def SpecTriple (l : List Char) : Prop :=
  ∃ d1 d2 d3 rest : List Char,
    (d1 ≠ [] ∧ ∀ c ∈ d1, c.isDigit = true) ∧
    (d2 ≠ [] ∧ ∀ c ∈ d2, c.isDigit = true) ∧
    (d3 ≠ [] ∧ ∀ c ∈ d3, c.isDigit = true) ∧
    l = d1 ++ '.' :: (d2 ++ '.' :: (d3 ++ rest))

/-- Declarative match of `v?(\d+\.\d+\.\d+)(-.*)?` anchored at the head of
`l` (the `(-.*)?` tail is subsumed by `SpecTriple`'s arbitrary `rest`). -/
def SpecGroup (l : List Char) : Prop :=
  SpecTriple l ∨ ∃ t, l = 'v' :: t ∧ SpecTriple t

/-- `s` contains a substring matching `v?(\d+\.\d+\.\d+)(-.*)?`: the pattern
matches at some start position. -/
def SpecHasMatch (s : List Char) : Prop :=
  ∃ i, SpecGroup (s.drop i)

/-- Declarative capture of group 1 anchored at the head of `l`: `l`
decomposes as `d1 ++ '.' ++ d2 ++ '.' ++ d3 ++ rest` with the `dk` non-empty
digit runs and `rest` not starting with a digit.  The last condition makes
`d3` the *maximal* run the greedy `\d+` captures (`d1`/`d2` are forced
maximal by the following `'.'`), so this is exactly the capture the regex
engine yields at this position. -/
def SpecCapture (l d1 d2 d3 : List Char) : Prop :=
  ∃ rest : List Char,
    (d1 ≠ [] ∧ ∀ c ∈ d1, c.isDigit = true) ∧
    (d2 ≠ [] ∧ ∀ c ∈ d2, c.isDigit = true) ∧
    (d3 ≠ [] ∧ ∀ c ∈ d3, c.isDigit = true) ∧
    (∀ c, rest.head? = some c → c.isDigit = false) ∧
    l = d1 ++ '.' :: (d2 ++ '.' :: (d3 ++ rest))

/-- Declarative capture of `v?(\d+\.\d+\.\d+)(-.*)?` anchored at the head of
`l`: the capture sits after an optional leading `'v'` (the two cases
exclude each other, since a capture starts with a digit and `'v'` is
none). -/
def SpecGroupCapture (l d1 d2 d3 : List Char) : Prop :=
  SpecCapture l d1 d2 d3 ∨ ∃ t, l = 'v' :: t ∧ SpecCapture t d1 d2 d3

/-- `i` is the start position of the *leftmost* match of the pattern in
`s`: the pattern matches at `i` and at no earlier position. -/
def SpecLeftmostMatch (s : List Char) (i : Nat) : Prop :=
  SpecGroup (s.drop i) ∧ ∀ j < i, ¬ SpecGroup (s.drop j)

/-- A captured digit run is a valid semver numeric component: no leading
zero (unless it is exactly "0") and its value fits in `u64`. -/
def SpecValidComponent (d : List Char) : Prop :=
  (d.head? = some '0' → d.length = 1) ∧ digitsToNat d < 2 ^ 64

/-- Specification-side "valid unpadded standard base64": the string is the
`STANDARD_NO_PAD` encoding of some byte sequence. -/
def SpecValidB64 (s : List Char) : Prop :=
  ∃ bs : List Nat, (∀ b ∈ bs, b < 256) ∧ b64Encode bs = s

/-- A concrete `join` input used to instantiate theorems: IP family IPv6, no
service CIDR, but an explicit cluster DNS IP supplied on the CLI. -/
def exampleJoinInput : JoinClusterInput :=
  { apiserver_endpoint := some "https://example.eks.amazonaws.com"
    b64_cluster_ca := some "Y2EgZGF0YQ"
    cluster_id := none
    cluster_name := "example"
    containerd_config_file := none
    default_container_runtime := .containerd
    cluster_dns_ip := some (.v6 0xa)
    is_local_cluster := false
    ip_family := .ipv6
    kubelet_extra_args := none
    local_disks := none
    pause_container_image := none
    service_cidr := none
    use_max_pods := true }

/-! # Theorems -/

/-! ## Helper lemmas -/

lemma cpuTier_eq_specCpuShare : ∀ i : Nat, cpuTier i = specCpuShare i
  | 0 => rfl
  | 1 => rfl
  | 2 => rfl
  | 3 => rfl
  | 4 => rfl
  | n + 5 => by
    have h : specCpuShare (n + 5) = 25 := by
      unfold specCpuShare
      rw [if_neg (by omega), if_neg (by omega), if_neg (by omega)]
    rw [h]
    rfl

lemma foldl_cpuTier (n : Nat) :
    (List.range n).foldl (fun acc cpu => acc + cpuTier cpu) 0 =
      ∑ i in Finset.range n, specCpuShare i := by
  induction n with
  | zero => rfl
  | succ n ih =>
    rw [List.range_succ, List.foldl_append, Finset.sum_range_succ, ih]
    simp [cpuTier_eq_specCpuShare]

lemma round_add50_div100 (m : Nat) :
    round ((m : ℚ) / 100) = (((m + 50) / 100 : Nat) : ℤ) := by
  rw [round_eq]
  have h : (m : ℚ) / 100 + 1 / 2 = (((m + 50 : Nat) : ℤ) : ℚ) / ((100 : Nat) : ℚ) := by
    push_cast
    ring
  rw [h, Rat.floor_intCast_div_natCast]
  omega

lemma ltv_iff_specLt (a b : SemVersion) : a.ltv b = true ↔ a.specLt b := by
  unfold SemVersion.ltv SemVersion.specLt
  exact decide_eq_true_iff

/-- `calculate_eni_max_pods` with the prefix-delegation modifier resolved:
disabled. -/
lemma eni_false (e a : Int) : calculate_eni_max_pods e a false = e * (a - 1) + 2 := by
  unfold calculate_eni_max_pods
  norm_num

/-- `calculate_eni_max_pods` with the prefix-delegation modifier resolved:
enabled. -/
lemma eni_true (e a : Int) : calculate_eni_max_pods e a true = e * ((a - 1) * 16) + 2 := by
  unfold calculate_eni_max_pods
  norm_num

/-! ## Claim theorems -/

/-- C6 (confirmed): for every `max_pods` and `num_cpus`,
`cpu_millicores_to_reserve` equals the tiered per-core sum (600 for core 0,
100 for cores 1–2, 50 for cores 3–4, 25 beyond, over `num_cpus` cores), plus
400 when `max_pods > 110`, divided by 100, rounded to the nearest integer,
and multiplied by 10; in particular it yields 70 at `(4, 2)` and 360 at
`(250, 96)`. -/
theorem cpu_millicores_rounding_spec :
    (∀ max_pods num_cpus : Int,
      cpu_millicores_to_reserve max_pods num_cpus = specCpuReserve max_pods num_cpus) ∧
    cpu_millicores_to_reserve 4 2 = 70 ∧ cpu_millicores_to_reserve 250 96 = 360 := by
  refine ⟨fun max_pods num_cpus => ?_, by decide, by decide⟩
  unfold cpu_millicores_to_reserve specCpuReserve
  have hsum : (∑ i in Finset.range num_cpus.toNat, (specCpuShare i : ℚ)) =
      ((∑ i in Finset.range num_cpus.toNat, specCpuShare i : Nat) : ℚ) := by
    push_cast
    rfl
  by_cases hmp : max_pods > 110
  · simp only [hmp, if_true, foldl_cpuTier, hsum]
    rw [show ((∑ i in Finset.range num_cpus.toNat, specCpuShare i : Nat) : ℚ) + 400 =
        (((∑ i in Finset.range num_cpus.toNat, specCpuShare i) + 400 : Nat) : ℚ) by push_cast; ring]
    rw [round_add50_div100]
    push_cast
    ring
  · simp only [hmp, if_false, foldl_cpuTier, hsum]
    rw [show ((∑ i in Finset.range num_cpus.toNat, specCpuShare i : Nat) : ℚ) + 0 =
        (((∑ i in Finset.range num_cpus.toNat, specCpuShare i) : Nat) : ℚ) by push_cast; ring]
    rw [round_add50_div100]
    push_cast
    ring

/-- C7 counterexample: `calculate_eni_max_pods` is *not* non-decreasing in
`num_enis` for every input pair — at `ipv4_addrs = 0` (with prefix
delegation fixed off), increasing `num_enis` from 0 to 1 decreases the
result from 2 to 1. -/
theorem eni_max_pods_monotonicity_counterexample :
    (0 : Int) ≤ 1 ∧
    calculate_eni_max_pods 0 0 false = 2 ∧
    calculate_eni_max_pods 1 0 false = 1 ∧
    ¬ calculate_eni_max_pods 0 0 false ≤ calculate_eni_max_pods 1 0 false := by decide

/-- C7 amended (proved): restricted to `0 ≤ num_enis` and `1 ≤ ipv4_addrs`,
`calculate_eni_max_pods` is non-decreasing in `num_enis` and in
`ipv4_addrs` for a fixed prefix-delegation flag, and for `ipv4_addrs > 1`
enabling prefix delegation never decreases the result. -/
theorem eni_max_pods_monotone_nonneg (num_enis num_enis' ipv4_addrs ipv4_addrs' : Int)
    (p : Bool) (he : 0 ≤ num_enis) (ha : 1 ≤ ipv4_addrs) :
    (num_enis ≤ num_enis' →
      calculate_eni_max_pods num_enis ipv4_addrs p ≤
        calculate_eni_max_pods num_enis' ipv4_addrs p) ∧
    (ipv4_addrs ≤ ipv4_addrs' →
      calculate_eni_max_pods num_enis ipv4_addrs p ≤
        calculate_eni_max_pods num_enis ipv4_addrs' p) ∧
    (1 < ipv4_addrs →
      calculate_eni_max_pods num_enis ipv4_addrs false ≤
        calculate_eni_max_pods num_enis ipv4_addrs true) := by
  rcases p with _ | _ <;>
    refine ⟨fun h => ?_, fun h => ?_, fun h => ?_⟩ <;>
    simp only [eni_false, eni_true] <;> nlinarith

/-- C7 witness: the amended monotonicity theorem applied at the concrete
inputs `num_enis = 1 ≤ 2`, `ipv4_addrs = 2 ≤ 3`, prefix delegation on. -/
theorem eni_max_pods_monotone_nonneg_witness :
    (0 : Int) ≤ 1 ∧ (1 : Int) ≤ 2 ∧
    ((1 ≤ (2 : Int) →
      calculate_eni_max_pods 1 2 true ≤ calculate_eni_max_pods 2 2 true) ∧
    ((2 : Int) ≤ 3 →
      calculate_eni_max_pods 1 2 true ≤ calculate_eni_max_pods 1 3 true) ∧
    (1 < (2 : Int) →
      calculate_eni_max_pods 1 2 false ≤ calculate_eni_max_pods 1 2 true)) :=
  ⟨by decide, by decide, eni_max_pods_monotone_nonneg 1 2 2 3 true (by decide) (by decide)⟩

/-- C2 (code bug, evaluated at the failing input): the write helpers open
with `write(true).create(true)` but never truncate nor remove the target, so
writing the single byte `99` over a pre-existing two-byte file `[97, 98]`
leaves `[99, 98]` on disk — not exactly the written content. -/
theorem write_file_no_truncate_stale_tail :
    (write_file [99] (some { data := [97, 98], mode := 0o644, owner := some (0, 0) })
      (some 0o644) true).data = [99, 98] ∧
    ([99, 98] : List Nat) ≠ [99] := by decide

/-- C1 (code bug, general form): for every instance type absent from the
capacity table, `get_max_pods` takes the fallback path, but that fallback
(`CalculateMaxPodsInput::calculate`) performs the very same table lookup and
therefore *always* fails — the "on-demand derivation" can never compute a
value for an absent type, and `get_max_pods` returns the lookup error for
every such type. -/
theorem get_max_pods_unknown_type_errs (table : List (String × Instance))
    (instance_type : String) (h : get_instance table instance_type = none) :
    get_max_pods table instance_type =
      .err ("Instance type " ++ instance_type ++ " is not supported or invalid") := by
  unfold get_max_pods CalculateMaxPodsInput.calculate
  rw [h]
  simp [h]

/-- C1 witness: evaluated at the concrete failing input — an instance type
(`"m5.large"`) absent from the (here: empty) capacity table. -/
theorem get_max_pods_unknown_type_errs_witness :
    get_instance [] "m5.large" = none ∧
    get_max_pods [] "m5.large" =
      .err ("Instance type " ++ "m5.large" ++ " is not supported or invalid") :=
  ⟨rfl, get_max_pods_unknown_type_errs [] "m5.large" rfl⟩

/-- C3 counterexample: with the single VPC CIDR block `10.0.0.0/7` — which
does **not** fall inside `10.0.0.0/8` (its prefix is shorter) — the claim
predicts `10.100.0.10`, but `derive_cluster_dns_ip` (which only inspects the
first octet of the block's address) returns `172.20.0.10`. -/
theorem derive_dns_ip_subnet_polarity_counterexample :
    derive_cluster_dns_ip none .ipv4 [⟨Ipv4Addr.mk4 10 0 0 0, 7⟩]
      = .ok (.v4 (Ipv4Addr.mk4 172 20 0 10)) ∧
    ¬ Ipv4Net.fallsInside ⟨Ipv4Addr.mk4 10 0 0 0, 7⟩ ⟨Ipv4Addr.mk4 10 0 0 0, 8⟩ ∧
    Ipv4Addr.mk4 172 20 0 10 ≠ Ipv4Addr.mk4 10 100 0 10 := by decide

/-- C3 amended (proved): with no service CIDR and IP family IPv4 the result
is `172.20.0.10` exactly when some VPC IPv4 CIDR block's *address* has first
octet 10 (regardless of the block's prefix length), and `10.100.0.10`
otherwise; with IP family IPv6 the call fails with the configuration
error. -/
theorem derive_dns_ip_first_octet_characterization (blocks : List Ipv4Net) :
    (derive_cluster_dns_ip none .ipv4 blocks = .ok (.v4 (Ipv4Addr.mk4 172 20 0 10)) ↔
      ∃ b ∈ blocks, b.addr.firstOctet = 10) ∧
    (derive_cluster_dns_ip none .ipv4 blocks = .ok (.v4 (Ipv4Addr.mk4 10 100 0 10)) ↔
      ¬ ∃ b ∈ blocks, b.addr.firstOctet = 10) ∧
    derive_cluster_dns_ip none .ipv6 blocks = .error .ipv6RequiresServiceCidr := by
  have hiff : (blocks.any fun cidr => cidr.addr.firstOctet == 10) = true ↔
      ∃ b ∈ blocks, b.addr.firstOctet = 10 := by
    simp [List.any_eq_true]
  have hv6 : derive_cluster_dns_ip none .ipv6 blocks = .error .ipv6RequiresServiceCidr := rfl
  by_cases h : (blocks.any fun cidr => cidr.addr.firstOctet == 10) = true
  · have h4 : derive_cluster_dns_ip none .ipv4 blocks = .ok (.v4 (Ipv4Addr.mk4 172 20 0 10)) := by
      unfold derive_cluster_dns_ip
      rw [if_pos h]
    refine ⟨iff_of_true h4 (hiff.mp h),
      iff_of_false (fun hc => ?_) (not_not_intro (hiff.mp h)), hv6⟩
    rw [h4] at hc
    exact absurd hc (by decide)
  · have h4 : derive_cluster_dns_ip none .ipv4 blocks = .ok (.v4 (Ipv4Addr.mk4 10 100 0 10)) := by
      unfold derive_cluster_dns_ip
      rw [if_neg h]
    have hne : ¬ ∃ b ∈ blocks, b.addr.firstOctet = 10 := fun he => h (hiff.mpr he)
    refine ⟨iff_of_false (fun hc => ?_) hne, iff_of_true h4 hne, hv6⟩
    rw [h4] at hc
    exact absurd hc (by decide)

/-- C4 (confirmed): for every kubelet version the credential-provider config
contains exactly one provider entry, named `ecr-credential-provider`, with
the fixed five ECR match-image patterns, `12h` cache duration (and the fixed
per-entry request apiVersion `credentialprovider.kubelet.k8s.io/v1`); the
config-level provider-API version string is
`credentialprovider.kubelet.k8s.io/v1alpha1` exactly below kubelet `1.27.0`
and `credentialprovider.kubelet.k8s.io/v1` otherwise. -/
theorem credential_provider_config_characterization (v : SemVersion) :
    (CredentialProviderConfig.new v).kind = "CredentialProviderConfig" ∧
    (CredentialProviderConfig.new v).providers = [{
      name := "ecr-credential-provider"
      match_images := ["*.dkr.ecr.*.amazonaws.com", "*.dkr.ecr.*.amazonaws.com.cn",
        "*.dkr.ecr-fips.*.amazonaws.com", "*.dkr.ecr.us-iso-east-1.c2s.ic.gov",
        "*.dkr.ecr.us-isob-east-1.sc2s.sgov.gov"]
      default_cache_duration := "12h"
      api_version := "credentialprovider.kubelet.k8s.io/v1"
      args := none
      env := none }] ∧
    ((CredentialProviderConfig.new v).api_version =
        "credentialprovider.kubelet.k8s.io/v1alpha1" ↔ v.specLt ⟨1, 27, 0⟩) ∧
    ((CredentialProviderConfig.new v).api_version =
        "credentialprovider.kubelet.k8s.io/v1" ↔ ¬ v.specLt ⟨1, 27, 0⟩) := by
  have hapi : (CredentialProviderConfig.new v).api_version =
      if v.ltv ⟨1, 27, 0⟩ = true then "credentialprovider.kubelet.k8s.io/v1alpha1"
      else "credentialprovider.kubelet.k8s.io/v1" := rfl
  refine ⟨rfl, rfl, ?_, ?_⟩ <;> rw [hapi]
  · by_cases h : v.ltv ⟨1, 27, 0⟩ = true
    · rw [if_pos h]
      exact iff_of_true rfl ((ltv_iff_specLt v _).mp h)
    · rw [if_neg h]
      exact iff_of_false (by decide) (fun hp => h ((ltv_iff_specLt v _).mpr hp))
  · by_cases h : v.ltv ⟨1, 27, 0⟩ = true
    · rw [if_pos h]
      exact iff_of_false (by decide) (not_not_intro ((ltv_iff_specLt v _).mp h))
    · rw [if_neg h]
      exact iff_of_true rfl (fun hp => h ((ltv_iff_specLt v _).mpr hp))

/-! ## C5 — kubelet config version gates -/

lemma not_specLt_iff (a b : SemVersion) : ¬ a.specLt b ↔ b.specLe a := by
  obtain ⟨a1, a2, a3⟩ := a
  obtain ⟨b1, b2, b3⟩ := b
  simp only [SemVersion.specLt, SemVersion.specLe, SemVersion.mk.injEq]
  omega

lemma gev_iff_specLe (a b : SemVersion) : a.gev b = true ↔ b.specLe a := by
  unfold SemVersion.gev
  rw [Bool.not_eq_true']
  rw [← Bool.not_eq_true (a.ltv b)]
  rw [ltv_iff_specLt a b]
  exact not_specLt_iff a b

lemma qps_cond_iff (v : SemVersion) :
    (SemVersion.gev v ⟨1, 22, 0⟩ && SemVersion.ltv v ⟨1, 27, 0⟩) = true ↔
      (SemVersion.specLe ⟨1, 22, 0⟩ v ∧ v.specLt ⟨1, 27, 0⟩) := by
  rw [Bool.and_eq_true, gev_iff_specLe, ltv_iff_specLt]

/-- C5 (confirmed): for every kubelet version `v` (and all other inputs),
the config built by `get_kubelet_config` carries `kube_api_qps = 10` and
`kube_api_burst = 20` exactly when `1.22.0 ≤ v < 1.27.0` (both unset
otherwise), carries no `provider_id` exactly when `v < 1.26.0` and
`provider_id = aws:///<az>/<instance-id>` otherwise, and carries
`max_pods` equal to the resolved value exactly when the use-max-pods flag
is set. -/
theorem kubelet_config_version_gates (self : JoinClusterInput) (cluster_dns_ip : IpAddr)
    (max_pods : Int) (v : SemVersion) (availability_zone instance_id : String)
    (num_cpus : Int) :
    ((self.get_kubelet_config cluster_dns_ip max_pods v availability_zone instance_id
        num_cpus).kube_api_qps = some 10 ∧
      (self.get_kubelet_config cluster_dns_ip max_pods v availability_zone instance_id
        num_cpus).kube_api_burst = some 20 ↔
      (SemVersion.specLe ⟨1, 22, 0⟩ v ∧ v.specLt ⟨1, 27, 0⟩)) ∧
    ((self.get_kubelet_config cluster_dns_ip max_pods v availability_zone instance_id
        num_cpus).kube_api_qps = none ∧
      (self.get_kubelet_config cluster_dns_ip max_pods v availability_zone instance_id
        num_cpus).kube_api_burst = none ↔
      ¬ (SemVersion.specLe ⟨1, 22, 0⟩ v ∧ v.specLt ⟨1, 27, 0⟩)) ∧
    ((self.get_kubelet_config cluster_dns_ip max_pods v availability_zone instance_id
        num_cpus).provider_id = none ↔ v.specLt ⟨1, 26, 0⟩) ∧
    ((self.get_kubelet_config cluster_dns_ip max_pods v availability_zone instance_id
        num_cpus).provider_id =
        some ("aws:///" ++ availability_zone ++ "/" ++ instance_id) ↔
      ¬ v.specLt ⟨1, 26, 0⟩) ∧
    (self.get_kubelet_config cluster_dns_ip max_pods v availability_zone instance_id
        num_cpus).max_pods = (if self.use_max_pods then some max_pods else none) := by
  have hqps : (self.get_kubelet_config cluster_dns_ip max_pods v availability_zone instance_id
      num_cpus).kube_api_qps =
      (if (SemVersion.gev v ⟨1, 22, 0⟩ && SemVersion.ltv v ⟨1, 27, 0⟩) = true
        then some 10 else none) := by
    unfold JoinClusterInput.get_kubelet_config
    cases hb : (SemVersion.gev v ⟨1, 22, 0⟩ && SemVersion.ltv v ⟨1, 27, 0⟩) <;>
      cases hm : SemVersion.ltv v ⟨1, 26, 0⟩ <;>
        simp [hb, hm, KubeletConfiguration.new, apply_ite (f := KubeletConfiguration.kube_api_qps)]
  have hburst : (self.get_kubelet_config cluster_dns_ip max_pods v availability_zone instance_id
      num_cpus).kube_api_burst =
      (if (SemVersion.gev v ⟨1, 22, 0⟩ && SemVersion.ltv v ⟨1, 27, 0⟩) = true
        then some 20 else none) := by
    unfold JoinClusterInput.get_kubelet_config
    cases hb : (SemVersion.gev v ⟨1, 22, 0⟩ && SemVersion.ltv v ⟨1, 27, 0⟩) <;>
      cases hm : SemVersion.ltv v ⟨1, 26, 0⟩ <;>
        simp [hb, hm, KubeletConfiguration.new,
          apply_ite (f := KubeletConfiguration.kube_api_burst)]
  have hprov : (self.get_kubelet_config cluster_dns_ip max_pods v availability_zone instance_id
      num_cpus).provider_id =
      (if SemVersion.ltv v ⟨1, 26, 0⟩ = true then none
        else some ("aws:///" ++ availability_zone ++ "/" ++ instance_id)) := by
    unfold JoinClusterInput.get_kubelet_config KubeletConfiguration.get_provider_id
    cases hm : SemVersion.ltv v ⟨1, 26, 0⟩ <;>
      simp [hm, KubeletConfiguration.new, apply_ite (f := KubeletConfiguration.provider_id)]
  have hmax : (self.get_kubelet_config cluster_dns_ip max_pods v availability_zone instance_id
      num_cpus).max_pods =
      (if self.use_max_pods then some max_pods else none) := by
    unfold JoinClusterInput.get_kubelet_config
    cases hm : SemVersion.ltv v ⟨1, 26, 0⟩ <;>
      cases hu : self.use_max_pods <;>
        simp [hm, hu, KubeletConfiguration.new, apply_ite (f := KubeletConfiguration.max_pods)]
  refine ⟨?_, ?_, ?_, ?_, hmax⟩
  · rw [hqps, hburst]
    by_cases hb : (SemVersion.gev v ⟨1, 22, 0⟩ && SemVersion.ltv v ⟨1, 27, 0⟩) = true
    · rw [if_pos hb, if_pos hb]
      exact iff_of_true ⟨rfl, rfl⟩ ((qps_cond_iff v).mp hb)
    · rw [if_neg hb, if_neg hb]
      exact iff_of_false (fun hmm => by cases hmm.1) (fun hs => hb ((qps_cond_iff v).mpr hs))
  · rw [hqps, hburst]
    by_cases hb : (SemVersion.gev v ⟨1, 22, 0⟩ && SemVersion.ltv v ⟨1, 27, 0⟩) = true
    · rw [if_pos hb, if_pos hb]
      exact iff_of_false (fun hmm => by cases hmm.1)
        (not_not_intro ((qps_cond_iff v).mp hb))
    · rw [if_neg hb, if_neg hb]
      exact iff_of_true ⟨rfl, rfl⟩ (fun hs => hb ((qps_cond_iff v).mpr hs))
  · rw [hprov]
    by_cases hm : SemVersion.ltv v ⟨1, 26, 0⟩ = true
    · rw [if_pos hm]
      exact iff_of_true rfl ((ltv_iff_specLt v _).mp hm)
    · rw [if_neg hm]
      exact iff_of_false (fun hmm => by cases hmm)
        (fun hs => hm ((ltv_iff_specLt v _).mpr hs))
  · rw [hprov]
    by_cases hm : SemVersion.ltv v ⟨1, 26, 0⟩ = true
    · rw [if_pos hm]
      exact iff_of_false (fun hmm => by cases hmm)
        (not_not_intro ((ltv_iff_specLt v _).mp hm))
    · rw [if_neg hm]
      exact iff_of_true rfl (fun hs => hm ((ltv_iff_specLt v _).mpr hs))

/-! ## C8 — supplied DNS IP bypasses derivation -/

lemma collect_cluster_dns (node : JoinClusterInput) (dns : IpAddr) (c : Cluster)
    (h : collect_cluster node dns = some c) : c.cluster_dns_ip = dns := by
  unfold collect_cluster at h
  cases he : node.apiserver_endpoint with
  | none =>
    rw [he] at h
    cases h
  | some endpoint =>
    rw [he] at h
    cases hb : node.b64_cluster_ca with
    | none =>
      rw [hb] at h
      cases h
    | some b64_ca =>
      rw [hb] at h
      cases h
      rfl

/-- C8 (confirmed): whenever the caller supplies `--dns-cluster-ip`,
`collect_or_get_cluster` uses that address verbatim — any successful result
carries exactly the supplied address, the IPv6-requires-service-CIDR
configuration error can never be produced, and the outcome is entirely
independent of `service_cidr` and `ip_family` (the only inputs the
derivation would read). -/
theorem supplied_dns_ip_bypasses_derivation (node : JoinClusterInput)
    (blocks : List Ipv4Net) (describe : Option DescribedCluster) (ip : IpAddr)
    (h : node.cluster_dns_ip = some ip) :
    (∀ c, collect_or_get_cluster node blocks describe = .ok c → c.cluster_dns_ip = ip) ∧
    collect_or_get_cluster node blocks describe ≠ .error .ipv6RequiresServiceCidr ∧
    (∀ service_cidr ip_family,
      collect_or_get_cluster
        { node with service_cidr := service_cidr, ip_family := ip_family } blocks describe =
      collect_or_get_cluster node blocks describe) := by
  have hred : ∀ (n : JoinClusterInput), n.cluster_dns_ip = some ip →
      collect_or_get_cluster n blocks describe =
        (match collect_cluster n ip with
         | some cluster => .ok cluster
         | none =>
           match describe with
           | some d =>
             .ok { name := d.name, endpoint := d.endpoint,
                   b64_ca := d.certificate_authority_data,
                   is_local_cluster := d.has_outpost_config, cluster_dns_ip := ip }
           | none => .error .describeFailed) := by
    intro n hn
    unfold collect_or_get_cluster
    rw [hn]
  refine ⟨?_, ?_, ?_⟩
  · intro c hc
    rw [hred node h] at hc
    cases hcc : collect_cluster node ip with
    | some cluster =>
      rw [hcc] at hc
      cases hc
      exact collect_cluster_dns node ip _ hcc
    | none =>
      rw [hcc] at hc
      cases describe with
      | some d =>
        cases hc
        rfl
      | none => cases hc
  · rw [hred node h]
    cases hcc : collect_cluster node ip with
    | some cluster => simp
    | none =>
      cases describe with
      | some d => simp
      | none => simp
  · intro service_cidr ip_family
    rw [hred node h, hred { node with service_cidr := service_cidr, ip_family := ip_family } h]
    rfl

/-- C8 witness: the theorem applied to a concrete input with IP family IPv6,
no service CIDR, and a supplied cluster DNS IP. -/
theorem supplied_dns_ip_bypasses_derivation_witness :
    exampleJoinInput.cluster_dns_ip = some (.v6 0xa) ∧
    ((∀ c, collect_or_get_cluster exampleJoinInput [] none = .ok c →
        c.cluster_dns_ip = .v6 0xa) ∧
      collect_or_get_cluster exampleJoinInput [] none ≠ .error .ipv6RequiresServiceCidr ∧
      (∀ service_cidr ip_family,
        collect_or_get_cluster
          { exampleJoinInput with
            service_cidr := service_cidr, ip_family := ip_family } [] none =
        collect_or_get_cluster exampleJoinInput [] none)) :=
  ⟨rfl, supplied_dns_ip_bypasses_derivation exampleJoinInput [] none (.v6 0xa) rfl⟩

/-! ## C9 — `get_semver` versus the declarative regex match -/

lemma takeWhile_dropWhile_app (p : Char → Bool) (xs : List Char) (c : Char) (ys : List Char)
    (hxs : ∀ x ∈ xs, p x = true) (hc : p c = false) :
    (xs ++ c :: ys).takeWhile p = xs ∧ (xs ++ c :: ys).dropWhile p = c :: ys := by
  induction xs with
  | nil =>
    simp [List.takeWhile_cons, List.dropWhile_cons, hc]
  | cons x xs ih =>
    have hx : p x = true := hxs x (List.mem_cons_self x xs)
    have ih' := ih fun y hy => hxs y (List.mem_cons_of_mem x hy)
    simp [List.takeWhile_cons, List.dropWhile_cons, hx, ih'.1, ih'.2]

lemma tripleAt_app (d1 d2 : List Char) (c3 : Char) (tail : List Char)
    (h1 : d1 ≠ []) (h1d : ∀ c ∈ d1, c.isDigit = true)
    (h2 : d2 ≠ []) (h2d : ∀ c ∈ d2, c.isDigit = true)
    (hc3 : c3.isDigit = true) :
    tripleAt (d1 ++ '.' :: (d2 ++ '.' :: (c3 :: tail))) =
      some (d1, d2, (c3 :: tail).takeWhile Char.isDigit) := by
  have t1 := takeWhile_dropWhile_app Char.isDigit d1 '.' (d2 ++ '.' :: (c3 :: tail)) h1d
    (by decide)
  have t2 := takeWhile_dropWhile_app Char.isDigit d2 '.' (c3 :: tail) h2d (by decide)
  unfold tripleAt
  rw [t1.2]
  dsimp only
  rw [if_pos rfl, t2.2]
  dsimp only
  rw [if_pos rfl, t1.1, t2.1]
  have e1 : d1.isEmpty = false := by
    cases d1 with
    | nil => exact absurd rfl h1
    | cons a b => rfl
  have e2 : d2.isEmpty = false := by
    cases d2 with
    | nil => exact absurd rfl h2
    | cons a b => rfl
  have e3 : ((c3 :: tail).takeWhile Char.isDigit).isEmpty = false := by
    rw [List.takeWhile_cons, if_pos hc3]
    rfl
  rw [e1, e2, e3]
  rfl

lemma tripleAt_ne_none_of_specTriple (l : List Char) (h : SpecTriple l) :
    tripleAt l ≠ none := by
  obtain ⟨d1, d2, d3, rest, ⟨h1, h1d⟩, ⟨h2, h2d⟩, ⟨h3, h3d⟩, rfl⟩ := h
  cases d3 with
  | nil => exact absurd rfl h3
  | cons c3 d3' =>
    have hc3 : c3.isDigit = true := h3d c3 (List.mem_cons_self _ _)
    rw [List.cons_append, tripleAt_app d1 d2 c3 (d3' ++ rest) h1 h1d h2 h2d hc3]
    intro hcontra
    cases hcontra

lemma specTriple_of_tripleAt (l : List Char) (g : List Char × List Char × List Char)
    (h : tripleAt l = some g) : SpecTriple l := by
  unfold tripleAt at h
  split at h
  case h_2 => cases h
  case h_1 dot1 r2 heq1 =>
    split at h
    case isFalse => cases h
    case isTrue hdot1 =>
      split at h
      case h_2 => cases h
      case h_1 dot2 r4 heq2 =>
        split at h
        case isFalse => cases h
        case isTrue hdot2 =>
          split at h
          case isTrue => cases h
          case isFalse hcond =>
            subst hdot1
            subst hdot2
            simp only [Bool.or_eq_true, not_or, List.isEmpty_eq_true] at hcond
            refine ⟨l.takeWhile Char.isDigit, r2.takeWhile Char.isDigit,
              r4.takeWhile Char.isDigit, r4.dropWhile Char.isDigit,
              ⟨hcond.1.1, fun c hc => List.mem_takeWhile_imp hc⟩,
              ⟨hcond.1.2, fun c hc => List.mem_takeWhile_imp hc⟩,
              ⟨hcond.2, fun c hc => List.mem_takeWhile_imp hc⟩, ?_⟩
            conv_lhs => rw [← List.takeWhile_append_dropWhile (p := Char.isDigit) (l := l)]
            rw [heq1]
            congr 1
            congr 1
            conv_lhs => rw [← List.takeWhile_append_dropWhile (p := Char.isDigit) (l := r2)]
            rw [heq2]
            congr 1
            congr 1
            conv_lhs => rw [← List.takeWhile_append_dropWhile (p := Char.isDigit) (l := r4)]

lemma specTriple_head_digit (c : Char) (t : List Char) (h : SpecTriple (c :: t)) :
    c.isDigit = true := by
  obtain ⟨d1, d2, d3, rest, ⟨h1, h1d⟩, _, _, hl⟩ := h
  cases d1 with
  | nil => exact absurd rfl h1
  | cons a b =>
    rw [List.cons_append] at hl
    injection hl with hca _
    rw [hca]
    exact h1d a (List.mem_cons_self _ _)

lemma not_specTriple_nil : ¬ SpecTriple [] := by
  rintro ⟨d1, d2, d3, rest, ⟨h1, _⟩, _, _, hl⟩
  cases d1 with
  | nil => exact h1 rfl
  | cons a b => cases hl

lemma groupAt_ne_none_of_specGroup (l : List Char) (h : SpecGroup l) :
    groupAt l ≠ none := by
  cases l with
  | nil =>
    rcases h with htrip | ⟨t, ht, _⟩
    · exact absurd htrip not_specTriple_nil
    · cases ht
  | cons c rest =>
    unfold groupAt
    dsimp only
    by_cases hc : c = 'v'
    · rw [if_pos hc]
      rcases h with htrip | ⟨t, ht, htrip⟩
      · rw [hc] at htrip
        have : ('v' : Char).isDigit = true := specTriple_head_digit 'v' rest htrip
        cases this
      · injection ht with _ hrest
        rw [hrest]
        exact tripleAt_ne_none_of_specTriple t htrip
    · rw [if_neg hc]
      rcases h with htrip | ⟨t, ht, htrip⟩
      · exact tripleAt_ne_none_of_specTriple _ htrip
      · injection ht with hcv _
        exact absurd hcv hc

lemma specGroup_of_groupAt (l : List Char) (g : List Char × List Char × List Char)
    (h : groupAt l = some g) : SpecGroup l := by
  cases l with
  | nil =>
    unfold groupAt tripleAt at h
    cases h
  | cons c rest =>
    unfold groupAt at h
    dsimp only at h
    by_cases hc : c = 'v'
    · rw [if_pos hc] at h
      exact Or.inr ⟨rest, by rw [hc], specTriple_of_tripleAt rest g h⟩
    · rw [if_neg hc] at h
      exact Or.inl (specTriple_of_tripleAt _ g h)

lemma not_specGroup_nil : ¬ SpecGroup [] := by
  rintro (htrip | ⟨t, ht, _⟩)
  · exact absurd htrip not_specTriple_nil
  · cases ht

lemma scanSemver_none_iff (s : List Char) :
    scanSemver s = none ↔ ∀ i, ¬ SpecGroup (s.drop i) := by
  induction s with
  | nil =>
    constructor
    · intro _ i
      rw [List.drop_nil]
      exact not_specGroup_nil
    · intro _
      rfl
  | cons c rest ih =>
    cases hg : groupAt (c :: rest) with
    | some g =>
      have hs : scanSemver (c :: rest) = some g := by
        show (match groupAt (c :: rest) with
          | some g => some g
          | none => scanSemver rest) = some g
        rw [hg]
      constructor
      · intro hnone
        rw [hs] at hnone
        cases hnone
      · intro hall
        exact absurd (specGroup_of_groupAt _ g hg) (by simpa using hall 0)
    | none =>
      have hs : scanSemver (c :: rest) = scanSemver rest := by
        show (match groupAt (c :: rest) with
          | some g => some g
          | none => scanSemver rest) = scanSemver rest
        rw [hg]
      rw [hs, ih]
      constructor
      · intro hall i
        cases i with
        | zero =>
          rw [List.drop_zero]
          intro hsg
          exact groupAt_ne_none_of_specGroup _ hsg hg
        | succ i =>
          rw [List.drop_succ_cons]
          exact hall i
      · intro hall i
        have h := hall (i + 1)
        rw [List.drop_succ_cons] at h
        exact h

lemma get_semver_err_iff (s : List Char) :
    get_semver s = .err "Unable to parse version" ↔ scanSemver s = none := by
  unfold get_semver
  cases h : scanSemver s with
  | none => simp
  | some g =>
    obtain ⟨d1, d2, d3⟩ := g
    apply iff_of_false
    · intro hcontra
      cases hp1 : parseNumeric d1 <;> cases hp2 : parseNumeric d2 <;>
        cases hp3 : parseNumeric d3 <;> simp [hp1, hp2, hp3] at hcontra
    · simp

/-- C9 counterexample: on the input `"01.2.3"` — which does contain a
substring matching `v?(\d+\.\d+\.\d+)(-.*)?` — `get_semver` neither returns
the captured version nor an error: `Version::parse("01.2.3").unwrap()`
panics on the leading zero. -/
theorem get_semver_leading_zero_panics :
    get_semver "01.2.3".toList = .panic ∧
    SpecHasMatch "01.2.3".toList ∧
    (∀ v : SemVersion, get_semver "01.2.3".toList ≠ .ok v) ∧
    get_semver "01.2.3".toList ≠ .err "Unable to parse version" := by
  refine ⟨by decide,
    ⟨0, Or.inl ⟨['0', '1'], ['2'], ['3'], [],
      ⟨by decide, by decide⟩, ⟨by decide, by decide⟩, ⟨by decide, by decide⟩, by decide⟩⟩,
    fun v h => ?_, by decide⟩
  rw [show get_semver "01.2.3".toList = .panic from by decide] at h
  cases h

lemma takeWhile_dropWhile_app2 (p : Char → Bool) (xs ys : List Char)
    (hxs : ∀ x ∈ xs, p x = true) (hys : ∀ c, ys.head? = some c → p c = false) :
    (xs ++ ys).takeWhile p = xs ∧ (xs ++ ys).dropWhile p = ys := by
  induction xs with
  | nil =>
    cases ys with
    | nil => exact ⟨rfl, rfl⟩
    | cons c ys' =>
      have hc := hys c rfl
      simp [List.takeWhile_cons, List.dropWhile_cons, hc]
  | cons x xs ih =>
    have hx : p x = true := hxs x (List.mem_cons_self _ _)
    have ih' := ih fun y hy => hxs y (List.mem_cons_of_mem _ hy)
    simp [List.takeWhile_cons, List.dropWhile_cons, hx, ih'.1, ih'.2]

lemma tripleAt_of_specCapture (l d1 d2 d3 : List Char) (h : SpecCapture l d1 d2 d3) :
    tripleAt l = some (d1, d2, d3) := by
  obtain ⟨rest, ⟨h1, h1d⟩, ⟨h2, h2d⟩, ⟨h3, h3d⟩, hrest, rfl⟩ := h
  have t1 := takeWhile_dropWhile_app Char.isDigit d1 '.' (d2 ++ '.' :: (d3 ++ rest)) h1d
    (by decide)
  have t2 := takeWhile_dropWhile_app Char.isDigit d2 '.' (d3 ++ rest) h2d (by decide)
  have t3 := takeWhile_dropWhile_app2 Char.isDigit d3 rest h3d hrest
  unfold tripleAt
  rw [t1.2]
  dsimp only
  rw [if_pos rfl, t2.2]
  dsimp only
  rw [if_pos rfl, t1.1, t2.1, t3.1]
  have e1 : d1.isEmpty = false := by
    cases d1 with
    | nil => exact absurd rfl h1
    | cons a b => rfl
  have e2 : d2.isEmpty = false := by
    cases d2 with
    | nil => exact absurd rfl h2
    | cons a b => rfl
  have e3 : d3.isEmpty = false := by
    cases d3 with
    | nil => exact absurd rfl h3
    | cons a b => rfl
  rw [e1, e2, e3]
  rfl

lemma specCapture_head (l d1 d2 d3 : List Char) (h : SpecCapture l d1 d2 d3) :
    ∃ x l', l = x :: l' ∧ x.isDigit = true := by
  obtain ⟨rest, ⟨h1, h1d⟩, _, _, _, hl⟩ := h
  cases d1 with
  | nil => exact absurd rfl h1
  | cons x d1' =>
    rw [List.cons_append] at hl
    exact ⟨x, _, hl, h1d x (List.mem_cons_self _ _)⟩

lemma groupAt_of_specGroupCapture (l d1 d2 d3 : List Char)
    (h : SpecGroupCapture l d1 d2 d3) : groupAt l = some (d1, d2, d3) := by
  rcases h with hc | ⟨t, rfl, hc⟩
  · have htrip := tripleAt_of_specCapture l d1 d2 d3 hc
    obtain ⟨x, l', rfl, hx⟩ := specCapture_head l d1 d2 d3 hc
    unfold groupAt
    dsimp only
    rw [if_neg (fun he => absurd (he ▸ hx) (by decide))]
    exact htrip
  · unfold groupAt
    dsimp only
    rw [if_pos rfl]
    exact tripleAt_of_specCapture t d1 d2 d3 hc

lemma scanSemver_at (s : List Char) : ∀ (i : Nat) (g : List Char × List Char × List Char),
    (∀ j < i, groupAt (s.drop j) = none) → groupAt (s.drop i) = some g →
    scanSemver s = some g := by
  induction s with
  | nil =>
    intro i g _ hat
    rw [List.drop_nil] at hat
    rw [show groupAt ([] : List Char) = none from rfl] at hat
    cases hat
  | cons c rest ih =>
    intro i g hbefore hat
    cases i with
    | zero =>
      rw [List.drop_zero] at hat
      show (match groupAt (c :: rest) with
        | some g => some g
        | none => scanSemver rest) = some g
      rw [hat]
    | succ i =>
      have h0 : groupAt (c :: rest) = none := by
        have hb := hbefore 0 (Nat.succ_pos i)
        rwa [List.drop_zero] at hb
      have hs : scanSemver (c :: rest) = scanSemver rest := by
        show (match groupAt (c :: rest) with
          | some g => some g
          | none => scanSemver rest) = scanSemver rest
        rw [h0]
      rw [hs]
      apply ih i g
      · intro j hj
        have hb := hbefore (j + 1) (Nat.succ_lt_succ hj)
        rwa [List.drop_succ_cons] at hb
      · rwa [List.drop_succ_cons] at hat

lemma scanSemver_of_leftmost (s : List Char) (i : Nat) (d1 d2 d3 : List Char)
    (hleft : SpecLeftmostMatch s i) (hcap : SpecGroupCapture (s.drop i) d1 d2 d3) :
    scanSemver s = some (d1, d2, d3) := by
  apply scanSemver_at s i
  · intro j hj
    cases hg : groupAt (s.drop j) with
    | none => rfl
    | some g => exact absurd (specGroup_of_groupAt _ g hg) (hleft.2 j hj)
  · exact groupAt_of_specGroupCapture _ d1 d2 d3 hcap

lemma parseNumeric_eq_some_iff (d : List Char) :
    parseNumeric d = some (digitsToNat d) ↔ SpecValidComponent d := by
  unfold parseNumeric SpecValidComponent
  split_ifs with h1 h2
  · exact iff_of_false (by simp) (fun hv => h1.2 (hv.1 h1.1))
  · exact iff_of_true rfl ⟨fun h0 => by by_contra hlen; exact h1 ⟨h0, hlen⟩, h2⟩
  · exact iff_of_false (by simp) (fun hv => h2 hv.2)

lemma parseNumeric_cases (d : List Char) :
    parseNumeric d = none ∨ parseNumeric d = some (digitsToNat d) := by
  unfold parseNumeric
  split_ifs <;> simp

/-- C9 amended (proved): for every input, `get_semver` returns its error
exactly when the string contains no substring matching
`v?(\d+\.\d+\.\d+)(-.*)?`; and whenever `i` is the leftmost match position
and `(d1, d2, d3)` the capture the pattern yields there, `get_semver`
returns the version whose components are the numeric values of
`d1`/`d2`/`d3` when all three are valid semver components (no leading zero,
below `2^64`), and *panics* — `Version::parse(..).unwrap()` — when any of
them is not.  On the claim's example `"Kubernetes v1.24.13-eks-0a21954"`
(arbitrary text before the match) it returns `1.24.13`. -/
theorem get_semver_full_characterization :
    (∀ s : List Char, get_semver s = .err "Unable to parse version" ↔ ¬ SpecHasMatch s) ∧
    (∀ (s : List Char) (i : Nat) (d1 d2 d3 : List Char),
      SpecLeftmostMatch s i → SpecGroupCapture (s.drop i) d1 d2 d3 →
      ((SpecValidComponent d1 ∧ SpecValidComponent d2 ∧ SpecValidComponent d3) →
        get_semver s = .ok ⟨digitsToNat d1, digitsToNat d2, digitsToNat d3⟩) ∧
      (¬ (SpecValidComponent d1 ∧ SpecValidComponent d2 ∧ SpecValidComponent d3) →
        get_semver s = .panic)) ∧
    get_semver "Kubernetes v1.24.13-eks-0a21954".toList = .ok ⟨1, 24, 13⟩ := by
  refine ⟨fun s => ?_, fun s i d1 d2 d3 hleft hcap => ?_, by decide⟩
  · rw [get_semver_err_iff, scanSemver_none_iff]
    exact not_exists.symm
  · have hscan := scanSemver_of_leftmost s i d1 d2 d3 hleft hcap
    constructor
    · rintro ⟨hv1, hv2, hv3⟩
      unfold get_semver
      rw [hscan]
      dsimp only
      rw [(parseNumeric_eq_some_iff d1).mpr hv1, (parseNumeric_eq_some_iff d2).mpr hv2,
        (parseNumeric_eq_some_iff d3).mpr hv3]
    · intro hinv
      unfold get_semver
      rw [hscan]
      dsimp only
      rcases parseNumeric_cases d1 with hp1 | hp1 <;>
        rcases parseNumeric_cases d2 with hp2 | hp2 <;>
          rcases parseNumeric_cases d3 with hp3 | hp3 <;>
        rw [hp1, hp2, hp3] <;>
        first
          | rfl
          | exact absurd ⟨(parseNumeric_eq_some_iff d1).mp hp1,
              (parseNumeric_eq_some_iff d2).mp hp2,
              (parseNumeric_eq_some_iff d3).mp hp3⟩ hinv

/-! ## C10 — base64 round trip and `write_ca_cert` -/

lemma b64Value_b64Char : ∀ v < 64, b64Value (b64Char v) = some v := by decide

lemma b64Char_b64Value (c : Char) (v : Nat) (h : b64Value c = some v) :
    v < 64 ∧ b64Char v = c := by
  unfold b64Value at h
  dsimp only at h
  unfold b64Char
  split_ifs at h with h1 h2 h3 h4 h5 <;> injection h with hv <;> subst hv
  · refine ⟨by omega, ?_⟩
    rw [if_pos (by omega)]
    rw [show 65 + (c.toNat - 65) = c.toNat by omega, Char.ofNat_toNat]
  · refine ⟨by omega, ?_⟩
    rw [if_neg (by omega), if_pos (by omega)]
    rw [show 97 + (c.toNat - 97 + 26 - 26) = c.toNat by omega, Char.ofNat_toNat]
  · refine ⟨by omega, ?_⟩
    rw [if_neg (by omega), if_neg (by omega), if_pos (by omega)]
    rw [show 48 + (c.toNat - 48 + 52 - 52) = c.toNat by omega, Char.ofNat_toNat]
  · refine ⟨by omega, ?_⟩
    rw [if_neg (by omega), if_neg (by omega), if_neg (by omega), if_pos (by omega)]
    rw [show (43 : Nat) = c.toNat by omega, Char.ofNat_toNat]
  · refine ⟨by omega, ?_⟩
    rw [if_neg (by omega), if_neg (by omega), if_neg (by omega), if_neg (by omega)]
    rw [show (47 : Nat) = c.toNat by omega, Char.ofNat_toNat]

lemma b64DecodeVals_lt256 : ∀ (vals : List Nat), ∀ bs, b64DecodeVals vals = some bs →
    (∀ v ∈ vals, v < 64) → ∀ b ∈ bs, b < 256 := by
  intro vals
  induction vals using b64DecodeVals.induct with
  | case1 =>
    intro bs h _
    cases h
    intro b hb
    cases hb
  | case2 a =>
    intro bs h _
    cases h
  | case3 a b hz =>
    intro bs h hlt
    have ha := hlt a (by simp)
    have hb := hlt b (by simp)
    unfold b64DecodeVals at h
    rw [if_pos hz] at h
    cases h
    intro x hx
    simp at hx
    omega
  | case4 a b hz =>
    intro bs h _
    unfold b64DecodeVals at h
    rw [if_neg hz] at h
    cases h
  | case5 a b c hz =>
    intro bs h hlt
    have ha := hlt a (by simp)
    have hb := hlt b (by simp)
    have hc := hlt c (by simp)
    unfold b64DecodeVals at h
    rw [if_pos hz] at h
    cases h
    intro x hx
    simp at hx
    rcases hx with rfl | rfl
    · omega
    · omega
  | case6 a b c hz =>
    intro bs h _
    unfold b64DecodeVals at h
    rw [if_neg hz] at h
    cases h
  | case7 a b c d rest bytes heq ih =>
    intro bs h hlt
    have ha := hlt a (by simp)
    have hb := hlt b (by simp)
    have hc := hlt c (by simp)
    have hd := hlt d (by simp)
    unfold b64DecodeVals at h
    rw [heq] at h
    dsimp only at h
    cases h
    intro x hx
    simp only [List.mem_cons] at hx
    rcases hx with rfl | rfl | rfl | hx
    · omega
    · omega
    · omega
    · exact ih bytes heq (fun v hv => hlt v (by simp [hv])) x hx
  | case8 a b c d rest heq ih =>
    intro bs h _
    unfold b64DecodeVals at h
    rw [heq] at h
    cases h

lemma b64EncodeVals_lt64 : ∀ (bs : List Nat), (∀ b ∈ bs, b < 256) →
    ∀ v ∈ b64EncodeVals bs, v < 64 := by
  intro bs
  induction bs using b64EncodeVals.induct with
  | case1 =>
    intro _ v hv
    cases hv
  | case2 b1 =>
    intro h v hv
    have h1 := h b1 (by simp)
    unfold b64EncodeVals at hv
    simp at hv
    rcases hv with rfl | rfl
    · omega
    · omega
  | case3 b1 b2 =>
    intro h v hv
    have h1 := h b1 (by simp)
    have h2 := h b2 (by simp)
    unfold b64EncodeVals at hv
    simp at hv
    rcases hv with rfl | rfl | rfl
    · omega
    · omega
    · omega
  | case4 b1 b2 b3 rest ih =>
    intro h v hv
    have h1 := h b1 (by simp)
    have h2 := h b2 (by simp)
    have h3 := h b3 (by simp)
    unfold b64EncodeVals at hv
    simp only [List.mem_cons] at hv
    rcases hv with rfl | rfl | rfl | rfl | hv
    · omega
    · omega
    · omega
    · omega
    · exact ih (fun b hb => h b (by simp [hb])) v hv

lemma b64DecodeVals_encodeVals : ∀ (bs : List Nat), (∀ b ∈ bs, b < 256) →
    b64DecodeVals (b64EncodeVals bs) = some bs := by
  intro bs
  induction bs using b64EncodeVals.induct with
  | case1 =>
    intro _
    rfl
  | case2 b1 =>
    intro h
    dsimp only [b64EncodeVals, b64DecodeVals]
    rw [if_pos (by omega)]
    simp only [Option.some.injEq, List.cons.injEq, and_true]
    omega
  | case3 b1 b2 =>
    intro h
    have h2 := h b2 (by simp)
    dsimp only [b64EncodeVals, b64DecodeVals]
    rw [if_pos (by omega)]
    simp only [Option.some.injEq, List.cons.injEq, and_true]
    constructor
    · omega
    · omega
  | case4 b1 b2 b3 rest ih =>
    intro h
    have h2 := h b2 (by simp)
    have h3 := h b3 (by simp)
    dsimp only [b64EncodeVals, b64DecodeVals]
    rw [ih (fun b hb => h b (by simp [hb]))]
    simp only [Option.some.injEq, List.cons.injEq, and_true]
    refine ⟨by omega, by omega, by omega⟩

lemma b64EncodeVals_decodeVals : ∀ (vals : List Nat), ∀ bs, (∀ v ∈ vals, v < 64) →
    b64DecodeVals vals = some bs → b64EncodeVals bs = vals := by
  intro vals
  induction vals using b64DecodeVals.induct with
  | case1 =>
    intro bs _ h
    cases h
    rfl
  | case2 a =>
    intro bs _ h
    cases h
  | case3 a b hz =>
    intro bs hlt h
    have hb := hlt b (by simp)
    unfold b64DecodeVals at h
    rw [if_pos hz] at h
    cases h
    unfold b64EncodeVals
    simp only [List.cons.injEq, and_true]
    constructor
    · omega
    · omega
  | case4 a b hz =>
    intro bs hlt h
    unfold b64DecodeVals at h
    rw [if_neg hz] at h
    cases h
  | case5 a b c hz =>
    intro bs hlt h
    have hb := hlt b (by simp)
    have hc := hlt c (by simp)
    unfold b64DecodeVals at h
    rw [if_pos hz] at h
    cases h
    unfold b64EncodeVals
    simp only [List.cons.injEq, and_true]
    refine ⟨by omega, by omega, by omega⟩
  | case6 a b c hz =>
    intro bs hlt h
    unfold b64DecodeVals at h
    rw [if_neg hz] at h
    cases h
  | case7 a b c d rest bytes heq ih =>
    intro bs hlt h
    have ha := hlt a (by simp)
    have hb := hlt b (by simp)
    have hc := hlt c (by simp)
    have hd := hlt d (by simp)
    unfold b64DecodeVals at h
    rw [heq] at h
    dsimp only at h
    cases h
    unfold b64EncodeVals
    simp only [List.cons.injEq]
    refine ⟨by omega, by omega, by omega, by omega,
      ih bytes (fun v hv => hlt v (by simp [hv])) heq⟩
  | case8 a b c d rest heq ih =>
    intro bs hlt h
    unfold b64DecodeVals at h
    rw [heq] at h
    cases h

lemma b64Vals_map (vals : List Nat) (h : ∀ v ∈ vals, v < 64) :
    b64Vals (vals.map b64Char) = some vals := by
  induction vals with
  | nil => rfl
  | cons v vs ih =>
    have hv : v < 64 := h v (List.mem_cons_self _ _)
    have ihh := ih fun x hx => h x (List.mem_cons_of_mem _ hx)
    rw [List.map_cons]
    unfold b64Vals
    rw [b64Value_b64Char v hv, ihh]

lemma b64Vals_inv : ∀ (s : List Char) (vals : List Nat),
    b64Vals s = some vals → s = vals.map b64Char ∧ ∀ v ∈ vals, v < 64 := by
  intro s
  induction s with
  | nil =>
    intro vals h
    cases h
    exact ⟨rfl, fun v hv => by cases hv⟩
  | cons c cs ih =>
    intro vals h
    unfold b64Vals at h
    cases hv : b64Value c with
    | none =>
      cases hm : b64Vals cs with
      | none =>
        rw [hv, hm] at h
        cases h
      | some vs =>
        rw [hv, hm] at h
        cases h
    | some v =>
      cases hm : b64Vals cs with
      | none =>
        rw [hv, hm] at h
        cases h
      | some vs =>
        rw [hv, hm] at h
        cases h
        obtain ⟨hmap, hlt⟩ := ih vs hm
        obtain ⟨hv64, hchar⟩ := b64Char_b64Value c v hv
        constructor
        · rw [List.map_cons, hchar, ← hmap]
        · intro x hx
          rcases List.mem_cons.mp hx with rfl | hx
          · exact hv64
          · exact hlt x hx

lemma b64Decode_encode (bs : List Nat) (h : ∀ b ∈ bs, b < 256) :
    b64Decode (b64Encode bs) = some bs := by
  unfold b64Decode b64Encode
  rw [b64Vals_map (b64EncodeVals bs) (b64EncodeVals_lt64 bs h)]
  exact b64DecodeVals_encodeVals bs h

lemma b64Encode_decode (s : List Char) (bs : List Nat) (h : b64Decode s = some bs) :
    b64Encode bs = s ∧ ∀ b ∈ bs, b < 256 := by
  unfold b64Decode at h
  cases hm : b64Vals s with
  | none =>
    rw [hm] at h
    cases h
  | some vals =>
    rw [hm] at h
    obtain ⟨hs, hv⟩ := b64Vals_inv s vals hm
    have henc := b64EncodeVals_decodeVals vals bs hv h
    constructor
    · rw [hs]
      unfold b64Encode
      rw [henc]
    · exact b64DecodeVals_lt256 vals bs h hv

lemma b64Vals_append_pad (t : List Char) : b64Vals (t ++ ['=']) = none := by
  induction t with
  | nil => rfl
  | cons c t ih =>
    rw [List.cons_append]
    unfold b64Vals
    rw [ih]
    cases b64Value c <;> rfl

/-- C10 (confirmed): `write_ca_cert` decodes its input as unpadded standard
base64 — on any input that is not the no-pad encoding of a byte sequence
(in particular any input carrying a trailing `'='`), it returns an error and
issues no write; on the encoding of bytes `bs` it passes exactly the decoded
bytes to `write_file` targeting `/etc/kubernetes/pki/ca.crt` with mode
`0o644` and chown-to-root requested. -/
theorem write_ca_cert_decode_characterization :
    (∀ s : List Char, ¬ SpecValidB64 s → write_ca_cert s = .error "base64 decode error") ∧
    (∀ bs : List Nat, (∀ b ∈ bs, b < 256) →
      write_ca_cert (b64Encode bs) =
        .ok { contents := bs, path := "/etc/kubernetes/pki/ca.crt",
              mode := some 0o644, chown := true }) ∧
    (∀ t : List Char, write_ca_cert (t ++ ['=']) = .error "base64 decode error") := by
  refine ⟨fun s hnv => ?_, fun bs h => ?_, fun t => ?_⟩
  · unfold write_ca_cert
    cases hd : b64Decode s with
    | none => rfl
    | some bs =>
      exfalso
      obtain ⟨he, hb⟩ := b64Encode_decode s bs hd
      exact hnv ⟨bs, hb, he⟩
  · unfold write_ca_cert
    rw [b64Decode_encode bs h]
  · unfold write_ca_cert
    have hnone : b64Decode (t ++ ['=']) = none := by
      unfold b64Decode
      rw [b64Vals_append_pad t]
    rw [hnone]

end Eksnode
